import Mathlib

/-!
Verification development for the sec-o in-memory property-graph prototype
(`server/db/core/multi_map.py`, `server/db/core/reversible_multi_map.py`,
`server/db/core/graph.py`, `server/db/db.py`).

The Python structures are shallowly embedded:
* a Python `dict`/`defaultdict` becomes a structure holding its insertion-ordered
  key list together with a total valuation function (the defaultdict default is
  the empty list, so `vals k = []` for untouched keys);
* raising an exception becomes `Except PyErr`;
* `uuid4()` is modelled as a deterministic fresh-value supply indexed by a draw
  counter threaded through the graph state;
* Python object aliasing of property dictionaries is modelled with an explicit
  heap mapping references to property maps.
-/

/-- Exceptions that the embedded code can raise. -/
inductive PyErr where
  | attributeError : PyErr
  | valueError : PyErr
deriving DecidableEq, Repr

/-- `PhasmaConfig` from `server/db/db.py`: a one-field named tuple carrying the
logging level (`None` disables logging). -/
structure PhasmaConfig where
  logging_level : Option String
deriving DecidableEq, Repr

/-- Python truthiness of the `logging_level` field: `None` and the empty string
are falsy, any other string is truthy. -/
def PhasmaConfig.truthy (c : PhasmaConfig) : Bool :=
  match c.logging_level with
  | none => false
  | some s => s ≠ ""

/-- `MultiMap` from `server/db/core/multi_map.py`.  The underlying
`defaultdict(list)` is embedded as the insertion-ordered list of keys present
in the dict together with a total valuation (default `[]`).  `hasLogger`
records whether the `self.logger` attribute was assigned in `__init__`
(it is assigned only when `config.logging_level` is truthy). -/
structure MultiMap where
  keys : List Int
  vals : Int → List Int
  config : PhasmaConfig
  hasLogger : Bool

/-- `MultiMap.__init__`: empty defaultdict; the logger attribute exists only
when the configured logging level is truthy. -/
def MultiMap.init (c : PhasmaConfig) : MultiMap :=
  { keys := [], vals := fun _ => [], config := c, hasLogger := c.truthy }

/-- The value `self._multimap[k]` would expose without inserting: the stored
list when `k` is a present key, the defaultdict default `[]` otherwise. -/
def MultiMap.dget (m : MultiMap) (k : Int) : List Int :=
  if k ∈ m.keys then m.vals k else []

/-- Store list `l` at key `k`, inserting `k` into the dict if absent (this is
what any `self._multimap[k]` access followed by an in-place list mutation
amounts to). -/
def MultiMap.set (m : MultiMap) (k : Int) (l : List Int) : MultiMap :=
  { m with
    keys := if k ∈ m.keys then m.keys else m.keys ++ [k],
    vals := fun x => if x = k then l else m.vals x }

/-- `len(m)`: number of keys of the underlying dict. -/
def MultiMap.len (m : MultiMap) : Nat := m.keys.length

/-- `MultiMap.empty`: `len(self) == 0`. -/
def MultiMap.isEmpty (m : MultiMap) : Bool := m.len = 0

/-- `MultiMap.contains_key`: `key in self._multimap`. -/
def MultiMap.contains_key (m : MultiMap) (k : Int) : Bool := k ∈ m.keys

/-- `MultiMap.get`: `self._multimap.get(key)` — `None` when the key is absent. -/
def MultiMap.get (m : MultiMap) (k : Int) : Option (List Int) :=
  if k ∈ m.keys then some (m.vals k) else none

/-- `MultiMap.contains_value`: true when `self.get(key)` is a non-empty
(truthy) list containing `value`. -/
def MultiMap.contains_value (m : MultiMap) (k v : Int) : Bool :=
  match m.get k with
  | some vals => if vals ≠ [] then v ∈ vals else false
  | none => false

/-- `MultiMap.add_edge`: `self._multimap[key].append(value); return True`.
The defaultdict access inserts the key when absent. -/
def MultiMap.add_edge (m : MultiMap) (k v : Int) : MultiMap × Bool :=
  (m.set k (m.dget k ++ [v]), true)

/-- `MultiMap.remove_edge`: `self._multimap[key].remove(value)` removes the
first occurrence and returns `True`; on `ValueError` (value absent) the code
consults `self.logger`, which raises `AttributeError` when the logger
attribute was never assigned, and returns `False` otherwise.  Either way the
defaultdict access has already inserted `key` when it was absent. -/
def MultiMap.remove_edge (m : MultiMap) (k v : Int) : Except PyErr (MultiMap × Bool) :=
  let l := m.dget k
  if v ∈ l then .ok (m.set k (l.erase v), true)
  else if m.hasLogger then .ok (m.set k l, false)
  else .error .attributeError

/-- `MultiMap.remove_key`: `del self._multimap[key]`; on `KeyError` the same
logger pattern applies. -/
def MultiMap.remove_key (m : MultiMap) (k : Int) : Except PyErr (MultiMap × Bool) :=
  if k ∈ m.keys then
    .ok ({ m with keys := m.keys.erase k, vals := fun x => if x = k then [] else m.vals x }, true)
  else if m.hasLogger then .ok (m, false)
  else .error .attributeError

/-- `MultiMap.clear_key`: reads `self._multimap[key]` (inserting the key when
absent), returns `[]` when the stored list is empty, otherwise clears the list
in place and returns a copy of its previous contents.  In both branches the
key remains (or becomes) present, mapped to the empty list. -/
def MultiMap.clear_key (m : MultiMap) (k : Int) : MultiMap × List Int :=
  let l := m.dget k
  if l.length = 0 then (m.set k [], [])
  else (m.set k [], l)

/-- `ReversibleMultiMap` data from `server/db/core/reversible_multi_map.py`:
four `MultiMap`s — forward node→node (`_from_to`), forward node→weight
(`_from_rel`), reverse node→node (`_to_from`), reverse node→weight
(`_to_rel`). -/
structure ReversibleMultiMap where
  from_to : MultiMap
  from_rel : MultiMap
  to_from : MultiMap
  to_rel : MultiMap

/-- The four-map state that `ReversibleMultiMap.__init__` would build from a
configuration, had it access to one (each inner map is `MultiMap(config)`). -/
def rmmOfConfig (c : PhasmaConfig) : ReversibleMultiMap :=
  { from_to := MultiMap.init c, from_rel := MultiMap.init c,
    to_from := MultiMap.init c, to_rel := MultiMap.init c }

/-- The attribute dictionary of a freshly created `ReversibleMultiMap`
instance, as `__init__` starts executing: no attribute has been assigned yet,
so `config` is absent. -/
structure RMMSelf where
  config : Option PhasmaConfig

/-- Python attribute read: accessing an attribute that was never assigned
raises `AttributeError`. -/
def attrRead {α : Type} (a : Option α) : Except PyErr α :=
  match a with
  | some v => .ok v
  | none => .error .attributeError

/-- `ReversibleMultiMap.__init__`: its first statement is
`self._from_to = MultiMap(self.config)`, which reads `self.config` before any
assignment to it (and `config` is not a parameter), so the read itself decides
whether construction can proceed. -/
def ReversibleMultiMap.init (self : RMMSelf) : Except PyErr ReversibleMultiMap := do
  let cfg ← attrRead self.config
  pure (rmmOfConfig cfg)

/-- Calling `ReversibleMultiMap()`: `__init__` runs on a fresh instance whose
attribute dictionary is empty. -/
def rmmNew : Except PyErr ReversibleMultiMap :=
  ReversibleMultiMap.init { config := none }

/-- `Graph.__init__` makes `self._related` a `defaultdict(ReversibleMultiMap)`
(`server/db/core/graph.py`): the first access to a missing key calls the
factory, i.e. constructs a `ReversibleMultiMap` from scratch. -/
def relatedDefaultAccess (_k : String) : Except PyErr ReversibleMultiMap :=
  rmmNew

/-- `ReversibleMultiMap.add_edge`: appends into all four inner maps and
returns the last call's result. -/
def ReversibleMultiMap.add_edge (r : ReversibleMultiMap) (f t w : Int) :
    ReversibleMultiMap × Bool :=
  let (m1, _) := r.from_to.add_edge f t
  let (m2, _) := r.from_rel.add_edge f w
  let (m3, _) := r.to_from.add_edge t f
  let (m4, b) := r.to_rel.add_edge t w
  ({ from_to := m1, from_rel := m2, to_from := m3, to_rel := m4 }, b)

/-- `ReversibleMultiMap.remove_edge`: removes from all four inner maps in
sequence, returning the last call's result; the intermediate results are
discarded, so a failed inner removal does not stop the later ones. -/
def ReversibleMultiMap.remove_edge (r : ReversibleMultiMap) (f t w : Int) :
    Except PyErr (ReversibleMultiMap × Bool) := do
  let (m1, _) ← r.from_to.remove_edge f t
  let (m2, _) ← r.from_rel.remove_edge f w
  let (m3, _) ← r.to_from.remove_edge t f
  let (m4, b) ← r.to_rel.remove_edge t w
  pure ({ from_to := m1, from_rel := m2, to_from := m3, to_rel := m4 }, b)

/-- Loop body of `ReversibleMultiMap.clear_key`: for each removed
`(edge, entry)` pair, `self._to_from.remove_edge(entry, key)` and
`self._to_rel.remove_edge(entry, edge)`. -/
def clearLoop (k : Int) (tf tr : MultiMap) :
    List (Int × Int) → Except PyErr (MultiMap × MultiMap)
  | [] => .ok (tf, tr)
  | (edge, entry) :: rest => do
      let (tf1, _) ← tf.remove_edge entry k
      let (tr1, _) ← tr.remove_edge entry edge
      clearLoop k tf1 tr1 rest

/-- `ReversibleMultiMap.clear_key`: pops `_from_rel[key]`; if that list is
empty it short-circuits with `False`; otherwise it pops `_from_to[key]` and,
for each removed pair, removes the mirrored reverse entries.  Only the
forward direction is walked — entries where `key` is the right participant
are never touched. -/
def ReversibleMultiMap.clear_key (r : ReversibleMultiMap) (k : Int) :
    Except PyErr (ReversibleMultiMap × Bool) :=
  let (fr, removed_edges) := r.from_rel.clear_key k
  if removed_edges.length = 0 then
    .ok ({ r with from_rel := fr }, false)
  else
    let (ft, removed_entries) := r.from_to.clear_key k
    do
      let (tf, tr) ← clearLoop k r.to_from r.to_rel (removed_edges.zip removed_entries)
      pure ({ from_to := ft, from_rel := fr, to_from := tf, to_rel := tr }, true)

/-- The forward adjacency entries recorded at key `k`: the positional pairing
of `_from_to[k]` with `_from_rel[k]` (a forward entry `k→t` with weight `w`). -/
def fwdPairs (r : ReversibleMultiMap) (k : Int) : List (Int × Int) :=
  (r.from_to.dget k).zip (r.from_rel.dget k)

/-- The reverse adjacency entries recorded at key `k`: the positional pairing
of `_to_from[k]` with `_to_rel[k]` (a reverse entry `k←f` with weight `w`). -/
def revPairs (r : ReversibleMultiMap) (k : Int) : List (Int × Int) :=
  (r.to_from.dget k).zip (r.to_rel.dget k)

/-- Adjacency symmetry (spec I3) as a counting statement: each forward entry
`f→t` with weight `w` is mirrored by a reverse entry `t←f` with the same `w`,
multiplicity included, and vice versa. -/
def symmetric (r : ReversibleMultiMap) : Prop :=
  ∀ f t w : Int, (fwdPairs r f).count (t, w) = (revPairs r t).count (f, w)

/-- One `add_edge`/`remove_edge` call in a call sequence. -/
inductive ROp where
  | add (f t w : Int) : ROp
  | rem (f t w : Int) : ROp

/-- Run one operation, discarding the returned boolean. -/
def runOp (r : ReversibleMultiMap) : ROp → Except PyErr ReversibleMultiMap
  | .add f t w => .ok (r.add_edge f t w).1
  | .rem f t w => (r.remove_edge f t w).map (·.1)

/-- Run a call sequence from a starting state. -/
def runOps (r : ReversibleMultiMap) : List ROp → Except PyErr ReversibleMultiMap
  | [] => .ok r
  | op :: rest => (runOp r op).bind (fun r1 => runOps r1 rest)

/-- A `ReversibleMultiMap` state as it would be inside a logging-enabled
instance (the unit tests instantiate the inner maps with
`PhasmaConfig(logging_level="info")`). -/
def rmmLogged : ReversibleMultiMap :=
  rmmOfConfig { logging_level := some "info" }

/-- The node and weight lists are kept parallel (same length per key) in both
directions. -/
def parallelLens (r : ReversibleMultiMap) : Prop :=
  (∀ k, (r.from_to.dget k).length = (r.from_rel.dget k).length) ∧
  (∀ k, (r.to_from.dget k).length = (r.to_rel.dget k).length)

/-- Build a state by a sequence of `add_edge` calls. -/
def addAll (r : ReversibleMultiMap) : List (Int × Int × Int) → ReversibleMultiMap
  | [] => r
  | (f, t, w) :: rest => addAll ((r.add_edge f t w).1) rest

/-- The violating call sequence for claim C1: one add, then a removal whose
triple does not match any recorded entry (the weight 10 does occur at key 1,
but paired with node 2, not node 3). -/
def c1Ops : List ROp := [ROp.add 1 2 10, ROp.rem 1 3 10]

/-- The state reached by `c1Ops` from the empty logging-enabled map. -/
def c1State : ReversibleMultiMap :=
  match runOps rmmLogged c1Ops with
  | .ok s => s
  | .error _ => rmmLogged

/-- Values stored in a node's property dictionary. -/
inductive PVal where
  | s : String → PVal
  | i : Int → PVal
deriving DecidableEq, Repr

/-- A Python dict of node properties: insertion-ordered association list. -/
abbrev PropMap := List (String × PVal)

/-- Python dict assignment `d[k] = v`: overwrite in place when the key is
present, append otherwise. -/
def PropMap.setK (p : PropMap) (k : String) (v : PVal) : PropMap :=
  if (p.lookup k).isSome then p.map (fun e => if e.1 = k then (k, v) else e)
  else p ++ [(k, v)]

/-- The heap of Python dict objects: a reference designates a dict whose
current contents every alias observes; in-place mutation is a `heapSet`. -/
abbrev Heap := Nat → PropMap

/-- Mutate the dict at reference `r` in place. -/
def heapSet (h : Heap) (r : Nat) (p : PropMap) : Heap :=
  fun x => if x = r then p else h x

/-- `uuid4()` modelled as a deterministic injective fresh-value supply,
indexed by the graph's draw counter. -/
def uuid4 (n : Nat) : Int := Int.ofNat n

/-- `Graph` from `server/db/core/graph.py`, restricted to the fields the
claims exercise.
* `edge_counts_keys`/`edge_counts` embed the `self.edge_counts`
  `defaultdict(int)`;
* `edges` embeds the `self._edges` record store reduced to each live
  record's type string (nothing in `graph.py` ever populates it);
* `node_keys_keys`/`node_keys` embed `self._node_keys` at its `add_node`
  usage: a plain key → node-id mapping (`key in self._node_keys`,
  `self._node_keys[key] = node_id`);
* `nodes` embeds `self._nodes`, mapping a node id to the reference of the
  node's property dict (Python stores the dict object itself, so this is an
  alias, not a copy);
* `deleted_nodes` embeds `self._deleted_nodes`;
* `uuidCtr` is the draw counter of the modelled `uuid4` supply. -/
structure Graph where
  edge_counts_keys : List String
  edge_counts : String → Int
  edges : List String
  node_keys_keys : List String
  node_keys : String → Int
  nodes : Int → Option Nat
  deleted_nodes : List Int
  uuidCtr : Nat

/-- `Graph.__init__`: every container empty. -/
def Graph.emptyG : Graph :=
  { edge_counts_keys := [], edge_counts := fun _ => 0, edges := [],
    node_keys_keys := [], node_keys := fun _ => -1,
    nodes := fun _ => none, deleted_nodes := [], uuidCtr := 0 }

/-- `Graph.get_edge_type_count`: `self.edge_counts.get(type)` — `None` when
the type was never counted. -/
def Graph.get_edge_type_count (g : Graph) (type : String) : Option Int :=
  if type ∈ g.edge_counts_keys then some (g.edge_counts type) else none

/-- `Graph.add_node(label, key, properties)`.  `properties` is passed by
reference (`pref`); the caller's dict object is mutated in place and stored
by reference, never copied.  Following the source line by line:
* `if key in self._node_keys: return -1` — the duplicate check looks at the
  key alone, the label is ignored;
* otherwise `properties["~label"]` and `properties["~key"]` are written into
  the caller's dict;
* with no deleted nodes, a fresh uuid is drawn, `properties["~id"]` is
  written, and `self._nodes[node_id] = properties` stores the reference;
* with a non-empty `self._deleted_nodes`, the code pops the most recently
  deleted id (`pop()` takes the last element, not the smallest), writes
  `properties["~id"]`, and then executes `self._nodes.append(properties)` —
  dicts have no `append`, so the call raises `AttributeError` and never
  completes. -/
def Graph.add_node (g : Graph) (heap : Heap) (label key : String) (pref : Nat) :
    Except PyErr (Graph × Heap × Int) :=
  if key ∈ g.node_keys_keys then .ok (g, heap, -1)
  else
    let h1 := heapSet heap pref (((heap pref).setK "~label" (.s label)).setK "~key" (.s key))
    match g.deleted_nodes with
    | [] =>
        let node_id := uuid4 g.uuidCtr
        let h2 := heapSet h1 pref ((h1 pref).setK "~id" (.i node_id))
        .ok ({ g with
                nodes := fun i => if i = node_id then some pref else g.nodes i,
                node_keys_keys := g.node_keys_keys ++ [key],
                node_keys := fun x => if x = key then node_id else g.node_keys x,
                uuidCtr := g.uuidCtr + 1 }, h2, node_id)
    | _ :: _ => .error .attributeError

/-- `Graph.remove_node`: the body is only a docstring, so the call returns
`None` and performs no state change whatsoever — in particular no id is
released into `self._deleted_nodes`. -/
def Graph.remove_node (g : Graph) (_label _key : String) : Graph × Option Bool :=
  (g, none)

/-- `Graph.get_node_by_id`: the body evaluates `self._nodes.get(id)` but has
no `return` statement, so the looked-up value is discarded and the function
returns `None`. -/
def Graph.get_node_by_id (g : Graph) (id : Int) : Option Nat :=
  let _discarded := g.nodes id
  none

/-- An empty `MultiMap` constructed with a truthy logging level (as the unit
tests do with `PhasmaConfig(logging_level="info")`): the logger attribute is
present. -/
def mmLoggedEmpty : MultiMap := MultiMap.init { logging_level := some "info" }

/-- An empty `MultiMap` constructed with `logging_level=None` (the default
`PhasmaDB()` configuration): the logger attribute is never assigned. -/
def mmUnloggedEmpty : MultiMap := MultiMap.init { logging_level := none }

/-- Modelled from the spec: `graph.py` defines no edge-creation operation
(the `Graph` class has no `add_edge`), so the mutator that maintains
`self.edge_counts` is taken from sections 4.5 and 4.6 of the spec: creation
increments the per-type running counter (with `defaultdict(int)`
key-insertion semantics) and stores one live edge record of the type. -/
def Graph.spec_add_edge (g : Graph) (T : String) : Graph :=
  { g with
    edge_counts_keys := if T ∈ g.edge_counts_keys then g.edge_counts_keys
                        else g.edge_counts_keys ++ [T],
    edge_counts := fun x => if x = T then g.edge_counts T + 1 else g.edge_counts x,
    edges := g.edges ++ [T] }

/-- Modelled from the spec: edge removal is likewise absent from `graph.py`;
per section 4.5 the counter is "incremented on create, decremented on
remove", and removal deletes one live edge record of the type. -/
def Graph.spec_remove_edge (g : Graph) (T : String) : Graph :=
  { g with
    edge_counts_keys := if T ∈ g.edge_counts_keys then g.edge_counts_keys
                        else g.edge_counts_keys ++ [T],
    edge_counts := fun x => if x = T then g.edge_counts T - 1 else g.edge_counts x,
    edges := g.edges.erase T }

/-- Iterated spec-modelled `add_edge` calls of one type. -/
def addEdgesN (T : String) : Nat → Graph → Graph
  | 0, g => g
  | n+1, g => (addEdgesN T n g).spec_add_edge T

/-- Iterated spec-modelled `remove_edge` calls of one type. -/
def removeEdgesN (T : String) : Nat → Graph → Graph
  | 0, g => g
  | n+1, g => (removeEdgesN T n g).spec_remove_edge T

/-- Reading a stored value after `set` at the same key gives the new list. -/
theorem MultiMap.dget_set_self (m : MultiMap) (k : Int) (l : List Int) :
    (m.set k l).dget k = l := by
  simp only [MultiMap.set, MultiMap.dget]
  by_cases h : k ∈ m.keys <;> simp [h]

/-- Reading a stored value after `set` at a different key is unchanged. -/
theorem MultiMap.dget_set_ne (m : MultiMap) (k k' : Int) (l : List Int) (h : k' ≠ k) :
    (m.set k l).dget k' = m.dget k' := by
  simp only [MultiMap.set, MultiMap.dget]
  by_cases hk : k ∈ m.keys <;> simp [h, hk]

/-- `set` never removes keys: membership is preserved or extended by `k`. -/
theorem MultiMap.mem_keys_set (m : MultiMap) (k k' : Int) (l : List Int) :
    (k' ∈ (m.set k l).keys) ↔ (k' ∈ m.keys ∨ k' = k) := by
  simp only [MultiMap.set]
  by_cases hk : k ∈ m.keys <;> simp [hk]
  intro h; subst h; exact hk

/-- Description of the forward node map after `ReversibleMultiMap.add_edge`. -/
theorem dget_add_from_to (r : ReversibleMultiMap) (f t w k : Int) :
    ((r.add_edge f t w).1).from_to.dget k =
      if k = f then r.from_to.dget f ++ [t] else r.from_to.dget k := by
  simp only [ReversibleMultiMap.add_edge, MultiMap.add_edge]
  by_cases h : k = f
  · subst h; simp [MultiMap.dget_set_self]
  · simp [h, MultiMap.dget_set_ne _ _ _ _ h]

/-- Description of the forward weight map after `ReversibleMultiMap.add_edge`. -/
theorem dget_add_from_rel (r : ReversibleMultiMap) (f t w k : Int) :
    ((r.add_edge f t w).1).from_rel.dget k =
      if k = f then r.from_rel.dget f ++ [w] else r.from_rel.dget k := by
  simp only [ReversibleMultiMap.add_edge, MultiMap.add_edge]
  by_cases h : k = f
  · subst h; simp [MultiMap.dget_set_self]
  · simp [h, MultiMap.dget_set_ne _ _ _ _ h]

/-- Description of the reverse node map after `ReversibleMultiMap.add_edge`. -/
theorem dget_add_to_from (r : ReversibleMultiMap) (f t w k : Int) :
    ((r.add_edge f t w).1).to_from.dget k =
      if k = t then r.to_from.dget t ++ [f] else r.to_from.dget k := by
  simp only [ReversibleMultiMap.add_edge, MultiMap.add_edge]
  by_cases h : k = t
  · subst h; simp [MultiMap.dget_set_self]
  · simp [h, MultiMap.dget_set_ne _ _ _ _ h]

/-- Description of the reverse weight map after `ReversibleMultiMap.add_edge`. -/
theorem dget_add_to_rel (r : ReversibleMultiMap) (f t w k : Int) :
    ((r.add_edge f t w).1).to_rel.dget k =
      if k = t then r.to_rel.dget t ++ [w] else r.to_rel.dget k := by
  simp only [ReversibleMultiMap.add_edge, MultiMap.add_edge]
  by_cases h : k = t
  · subst h; simp [MultiMap.dget_set_self]
  · simp [h, MultiMap.dget_set_ne _ _ _ _ h]

/-- `add_edge` preserves parallel lengths. -/
theorem parallelLens_add (r : ReversibleMultiMap) (f t w : Int)
    (h : parallelLens r) : parallelLens ((r.add_edge f t w).1) := by
  obtain ⟨h1, h2⟩ := h
  constructor
  · intro k
    rw [dget_add_from_to, dget_add_from_rel]
    by_cases hk : k = f <;> simp [hk, h1 f, h1 k]
  · intro k
    rw [dget_add_to_from, dget_add_to_rel]
    by_cases hk : k = t <;> simp [hk, h2 t, h2 k]

/-- `add_edge` preserves adjacency symmetry (given parallel lengths, the new
entry lands as the pair `(t, w)` at the end of `f`'s forward entries and as
`(f, w)` at the end of `t`'s reverse entries). -/
theorem symmetric_add (r : ReversibleMultiMap) (f t w : Int)
    (hlen : parallelLens r) (h : symmetric r) :
    symmetric ((r.add_edge f t w).1) := by
  intro f' t' w'
  have hfwd : fwdPairs ((r.add_edge f t w).1) f' =
      if f' = f then fwdPairs r f ++ [(t, w)] else fwdPairs r f' := by
    simp only [fwdPairs, dget_add_from_to, dget_add_from_rel]
    by_cases hf : f' = f
    · simp [hf, List.zip_append (hlen.1 f)]
    · simp [hf]
  have hrev : revPairs ((r.add_edge f t w).1) t' =
      if t' = t then revPairs r t ++ [(f, w)] else revPairs r t' := by
    simp only [revPairs, dget_add_to_from, dget_add_to_rel]
    by_cases ht : t' = t
    · simp [ht, List.zip_append (hlen.2 t)]
    · simp [ht]
  rw [hfwd, hrev]
  by_cases hf : f' = f <;> by_cases ht : t' = t
  · rw [hf, ht]
    simp only [if_true, List.count_append]
    rw [h f t w']
    by_cases hw : w' = w <;>
      simp [List.count_cons, List.count_nil, Prod.ext_iff, hw]
  · rw [hf]
    simp only [if_true, if_neg ht, List.count_append]
    rw [h f t' w']
    simp [List.count_cons, List.count_nil, Prod.ext_iff, ht]
  · rw [ht]
    simp only [if_true, if_neg hf, List.count_append]
    rw [h f' t w']
    simp [List.count_cons, List.count_nil, Prod.ext_iff, hf]
  · simp only [if_neg hf, if_neg ht]
    exact h f' t' w'

/-- Both invariants hold along any pure `add_edge` sequence. -/
theorem addAll_invariant (l : List (Int × Int × Int)) :
    ∀ r : ReversibleMultiMap, parallelLens r ∧ symmetric r →
      parallelLens (addAll r l) ∧ symmetric (addAll r l) := by
  induction l with
  | nil => intro r h; exact h
  | cons e rest ih =>
      intro r h
      obtain ⟨f, t, w⟩ := e
      exact ih _ ⟨parallelLens_add r f t w h.1,
        symmetric_add r f t w h.1 h.2⟩

/-- The empty state satisfies both invariants. -/
theorem invariant_empty (c : PhasmaConfig) :
    parallelLens (rmmOfConfig c) ∧ symmetric (rmmOfConfig c) := by
  constructor
  · constructor <;> intro k <;> simp [rmmOfConfig, MultiMap.init, MultiMap.dget]
  · intro f t w
    simp [rmmOfConfig, MultiMap.init, MultiMap.dget, fwdPairs, revPairs]

/-- Appending an element and then erasing its first occurrence restores the
list up to permutation. -/
theorem perm_append_singleton_erase (l : List Int) (a : Int) :
    ((l ++ [a]).erase a).Perm l := by
  by_cases h : a ∈ l
  · rw [List.erase_append_left _ h]
    refine ((List.perm_append_comm).trans ?_)
    exact (List.perm_cons_erase h).symm
  · rw [List.erase_append_right _ h]
    simp

/-- Round trip: `add_edge(f,t,w)` immediately followed by
`remove_edge(f,t,w)` succeeds, returns `True`, and restores all four
adjacency lists up to permutation. -/
theorem rmm_add_then_remove (r : ReversibleMultiMap) (f t w : Int) :
    ∃ r2 : ReversibleMultiMap,
      ((r.add_edge f t w).1).remove_edge f t w = .ok (r2, true) ∧
      (∀ k, (r2.from_to.dget k).Perm (r.from_to.dget k)) ∧
      (∀ k, (r2.from_rel.dget k).Perm (r.from_rel.dget k)) ∧
      (∀ k, (r2.to_from.dget k).Perm (r.to_from.dget k)) ∧
      (∀ k, (r2.to_rel.dget k).Perm (r.to_rel.dget k)) := by
  have e1 : ((r.add_edge f t w).1).from_to.dget f = r.from_to.dget f ++ [t] := by
    rw [dget_add_from_to]; simp
  have e2 : ((r.add_edge f t w).1).from_rel.dget f = r.from_rel.dget f ++ [w] := by
    rw [dget_add_from_rel]; simp
  have e3 : ((r.add_edge f t w).1).to_from.dget t = r.to_from.dget t ++ [f] := by
    rw [dget_add_to_from]; simp
  have e4 : ((r.add_edge f t w).1).to_rel.dget t = r.to_rel.dget t ++ [w] := by
    rw [dget_add_to_rel]; simp
  refine ⟨{ from_to := ((r.add_edge f t w).1).from_to.set f ((r.from_to.dget f ++ [t]).erase t),
            from_rel := ((r.add_edge f t w).1).from_rel.set f ((r.from_rel.dget f ++ [w]).erase w),
            to_from := ((r.add_edge f t w).1).to_from.set t ((r.to_from.dget t ++ [f]).erase f),
            to_rel := ((r.add_edge f t w).1).to_rel.set t ((r.to_rel.dget t ++ [w]).erase w) },
          ?_, ?_, ?_, ?_, ?_⟩
  · simp only [ReversibleMultiMap.remove_edge, MultiMap.remove_edge, e1, e2, e3, e4]
    simp only [List.mem_append, List.mem_singleton, or_true, if_true, if_pos]
    rfl
  · intro k
    by_cases hk : k = f
    · rw [hk, MultiMap.dget_set_self]; exact perm_append_singleton_erase _ _
    · rw [MultiMap.dget_set_ne _ _ _ _ hk, dget_add_from_to]
      simp [hk]
  · intro k
    by_cases hk : k = f
    · rw [hk, MultiMap.dget_set_self]; exact perm_append_singleton_erase _ _
    · rw [MultiMap.dget_set_ne _ _ _ _ hk, dget_add_from_rel]
      simp [hk]
  · intro k
    by_cases hk : k = t
    · rw [hk, MultiMap.dget_set_self]; exact perm_append_singleton_erase _ _
    · rw [MultiMap.dget_set_ne _ _ _ _ hk, dget_add_to_from]
      simp [hk]
  · intro k
    by_cases hk : k = t
    · rw [hk, MultiMap.dget_set_self]; exact perm_append_singleton_erase _ _
    · rw [MultiMap.dget_set_ne _ _ _ _ hk, dget_add_to_rel]
      simp [hk]

/-- Claim C1 counterexample: running `add_edge(1,2,10)` then
`remove_edge(1,3,10)` on an empty `ReversibleMultiMap` succeeds (the failed
removal only returns `False`), yet in the reached state the reverse entry
`2←1` with weight 10 still exists while its forward mirror `1→2` with weight
10 is gone — the removal stripped weight 10 from `_from_rel[1]` even though
node 3 was not a neighbor.  The reachable-state symmetry invariant asserted
by the claim is therefore false. -/
theorem c1_counterexample :
    (runOps rmmLogged c1Ops).map
        (fun s => ((fwdPairs s 1).count (2, 10), (revPairs s 2).count (1, 10)))
      = .ok (0, 1) ∧
    ¬ symmetric c1State := by
  constructor
  · rfl
  · intro h
    exact absurd (h 1 2 10) (by decide)

/-- Claim C1 (amended): (i) in every state reachable from empty by `add_edge`
calls alone, each forward entry `f→t` with weight `w` is mirrored by a
reverse entry `t←f` with the same `w`, with equal multiplicity, and vice
versa; (ii) directly after `add_edge(f,t,w)` the pair is recorded in both
directions (with `w` on both sides); (iii) `add_edge(f,t,w)` immediately
followed by the matching `remove_edge(f,t,w)` succeeds and restores all four
adjacency lists up to permutation, so a triple absent before the round trip
is absent after it.  A `remove_edge` whose triple does not match a recorded
entry can break the symmetry (see the counterexample). -/
theorem c1_amended :
    (∀ (c : PhasmaConfig) (l : List (Int × Int × Int)),
        symmetric (addAll (rmmOfConfig c) l)) ∧
    (∀ (r : ReversibleMultiMap) (f t w : Int),
        t ∈ ((r.add_edge f t w).1).from_to.dget f ∧
        w ∈ ((r.add_edge f t w).1).from_rel.dget f ∧
        f ∈ ((r.add_edge f t w).1).to_from.dget t ∧
        w ∈ ((r.add_edge f t w).1).to_rel.dget t) ∧
    (∀ (r : ReversibleMultiMap) (f t w : Int),
      ∃ r2, ((r.add_edge f t w).1).remove_edge f t w = .ok (r2, true) ∧
        (∀ k, (r2.from_to.dget k).Perm (r.from_to.dget k)) ∧
        (∀ k, (r2.from_rel.dget k).Perm (r.from_rel.dget k)) ∧
        (∀ k, (r2.to_from.dget k).Perm (r.to_from.dget k)) ∧
        (∀ k, (r2.to_rel.dget k).Perm (r.to_rel.dget k))) := by
  refine ⟨?_, ?_, rmm_add_then_remove⟩
  · intro c l
    exact (addAll_invariant l _ (invariant_empty c)).2
  · intro r f t w
    refine ⟨?_, ?_, ?_, ?_⟩
    · rw [dget_add_from_to]; simp
    · rw [dget_add_from_rel]; simp
    · rw [dget_add_to_from]; simp
    · rw [dget_add_to_rel]; simp

/-- After `n` spec-modelled additions of type `T` starting from the empty
graph, the counter reads `n`, the record store holds `n` records of type `T`,
and (once `n ≥ 1`) the type is a present counter key. -/
theorem addEdgesN_spec (T : String) (n : Nat) :
    (addEdgesN T n Graph.emptyG).edge_counts T = (n : Int) ∧
    (addEdgesN T n Graph.emptyG).edges = List.replicate n T ∧
    (1 ≤ n → T ∈ (addEdgesN T n Graph.emptyG).edge_counts_keys) := by
  induction n with
  | zero => exact ⟨rfl, rfl, by omega⟩
  | succ m ih =>
      obtain ⟨h1, h2, _⟩ := ih
      refine ⟨?_, ?_, ?_⟩
      · simp [addEdgesN, Graph.spec_add_edge, h1]
      · simp [addEdgesN, Graph.spec_add_edge, h2, List.replicate_succ']
      · intro _
        simp only [addEdgesN, Graph.spec_add_edge]
        by_cases hT : T ∈ (addEdgesN T m Graph.emptyG).edge_counts_keys <;> simp [hT]

/-- After `M ≤ m` spec-modelled removals of type `T` from a graph holding `m`
records of type `T` and counter value `c`, the counter reads `c - M` and
`m - M` records remain. -/
theorem removeEdgesN_spec (T : String) (M : Nat) :
    ∀ (g : Graph) (c : Int) (m : Nat), g.edge_counts T = c →
      g.edges = List.replicate m T → T ∈ g.edge_counts_keys → M ≤ m →
      (removeEdgesN T M g).edge_counts T = c - M ∧
      (removeEdgesN T M g).edges = List.replicate (m - M) T ∧
      T ∈ (removeEdgesN T M g).edge_counts_keys := by
  induction M with
  | zero => intro g c m h1 h2 h3 _; simpa [removeEdgesN] using ⟨h1, h2, h3⟩
  | succ k ih =>
      intro g c m h1 h2 h3 hle
      obtain ⟨i1, i2, i3⟩ := ih g c m h1 h2 h3 (by omega)
      refine ⟨?_, ?_, ?_⟩
      · simp only [removeEdgesN, Graph.spec_remove_edge, i1]
        simp only [if_true, Nat.cast_add, Nat.cast_one]
        omega
      · simp only [removeEdgesN, Graph.spec_remove_edge, i2]
        have hmk : m - k = (m - (k+1)) + 1 := by omega
        rw [hmk, List.replicate_succ, List.erase_cons_head]
      · simp only [removeEdgesN, Graph.spec_remove_edge]
        by_cases hT : T ∈ (removeEdgesN T k g).edge_counts_keys <;> simp [hT]

/-- Claim C2, evaluating `ReversibleMultiMap.clear_key` at the failing input:
after `add_edge(5, 7, 10)`, `clear_key(7)` returns `False` — although node 7
has (reverse-side) adjacency — and leaves every entry mentioning 7 in place:
`_to_from[7] = [5]`, `_to_rel[7] = [10]`, `_from_to[5] = [7]`,
`_from_rel[5] = [10]`.  The method walks only the forward direction, the I5
defect the spec attributes to this prototype. -/
theorem c2_code_eval :
    (((rmmLogged.add_edge 5 7 10).1).clear_key 7).map
        (fun p => (p.2, p.1.to_from.dget 7, p.1.to_rel.dget 7,
                   p.1.from_to.dget 5, p.1.from_rel.dget 5))
      = .ok (false, [5], [10], [7], [10]) := by rfl

/-- Claim C3 counterexample: after a successful `add_node("A", "k", _)`, the
call `add_node("B", "k", _)` — a different label, a key pair never added —
returns the duplicate sentinel `-1` instead of succeeding, because the check
`if key in self._node_keys` is scoped to the key alone, not to the
`(label, key)` pair as the claim states. -/
theorem c3_counterexample :
    ((Graph.emptyG.add_node (fun _ => []) "A" "k" 0).bind (fun tr1 =>
        (tr1.1.add_node tr1.2.1 "B" "k" 1).map (fun tr2 => (tr1.2.2, tr2.2.2))))
      = .ok (uuid4 0, -1) ∧ uuid4 0 ≠ -1 :=
  ⟨rfl, by decide⟩

/-- Claim C3 (amended): after a successful `add_node(label, key, _)`, a second
`add_node` with the same `key` — under any label — fails with the duplicate
sentinel `-1` and leaves the node store (records, key index, and heap)
entirely unchanged; the duplicate check is scoped to the key alone. -/
theorem c3_amended (g : Graph) (heap : Heap) (label key : String) (pref : Nat)
    (hnew : key ∉ g.node_keys_keys) (hdel : g.deleted_nodes = []) :
    ∃ (g1 : Graph) (heap1 : Heap) (i : Int),
      g.add_node heap label key pref = .ok (g1, heap1, i) ∧ i ≠ -1 ∧
      ∀ (label' : String) (pref' : Nat),
        g1.add_node heap1 label' key pref' = .ok (g1, heap1, -1) := by
  unfold Graph.add_node
  rw [if_neg hnew, hdel]
  refine ⟨_, _, _, rfl, ?_, ?_⟩
  · show Int.ofNat g.uuidCtr ≠ -1
    intro hc
    have hc' : (g.uuidCtr : Int) = -1 := hc
    omega
  · intro label' pref'
    rw [if_pos (by simp)]

/-- Witness for `c3_amended` at the empty graph with label "A", key "k". -/
theorem c3_amended_witness :
    ("k" ∉ Graph.emptyG.node_keys_keys ∧ Graph.emptyG.deleted_nodes = []) ∧
    (∃ (g1 : Graph) (heap1 : Heap) (i : Int),
      Graph.emptyG.add_node (fun _ => []) "A" "k" 0 = .ok (g1, heap1, i) ∧ i ≠ -1 ∧
      ∀ (label' : String) (pref' : Nat),
        g1.add_node heap1 label' "k" pref' = .ok (g1, heap1, -1)) :=
  ⟨⟨by simp [Graph.emptyG], rfl⟩,
   c3_amended Graph.emptyG (fun _ => []) "A" "k" 0 (by simp [Graph.emptyG]) rfl⟩

/-- Claim C4, evaluating the code on the failing sequence
`add_node("P","a")` → `remove_node("P","a")` → `add_node("P","b")`:
`remove_node` has an empty body, so it returns `None`, releases nothing, and
changes no state (first conjunct, for every graph and arguments); hence after
the sequence `_deleted_nodes` is still empty and the third call draws the
next fresh uuid (`uuid4 1`) instead of reusing a released id — no id
recycling ever happens. -/
theorem c4_code_eval :
    (∀ (g : Graph) (label key : String), g.remove_node label key = (g, none)) ∧
    ((Graph.emptyG.add_node (fun _ => []) "P" "a" 0).bind (fun tr1 =>
        ((tr1.1.remove_node "P" "a").1.add_node tr1.2.1 "P" "b" 1).map
          (fun tr2 => (tr2.2.2, (tr1.1.remove_node "P" "a").2,
                       (tr1.1.remove_node "P" "a").1.deleted_nodes))))
      = .ok (uuid4 1, none, []) :=
  ⟨fun _ _ _ => rfl, rfl⟩

/-- Claim C5, evaluating `add_node("Person", "alice", d)` with the caller's
dict `d` at heap reference 0: the stored node record is reference 0 itself —
the caller's own dict object, not a copy — and after the call the caller's
dict contains the reserved fields `~label`, `~key`, `~id` written by
`add_node`.  Consequently (second conjunct) a caller-side in-place mutation
of `d` after the call is visible through the stored record's reference. -/
theorem c5_code_eval :
    (Graph.emptyG.add_node (fun _ => []) "Person" "alice" 0).map (fun tr =>
        (tr.1.nodes tr.2.2,
         (tr.2.1 0).lookup "~label", (tr.2.1 0).lookup "~key",
         (tr.2.1 0).lookup "~id"))
      = .ok (some 0, some (PVal.s "Person"), some (PVal.s "alice"),
             some (PVal.i (uuid4 0))) ∧
    (Graph.emptyG.add_node (fun _ => []) "Person" "alice" 0).map (fun tr =>
        match tr.1.nodes tr.2.2 with
        | some r => ((heapSet tr.2.1 0 ((tr.2.1 0).setK "x" (PVal.i 42))) r).lookup "x"
        | none => none)
      = .ok (some (PVal.i 42)) :=
  ⟨rfl, rfl⟩

/-- Claim C6 counterexample: with `N = 0` adds and `M = 0` removes of type
"knows" (both allowed by the claim's quantification `M ≤ N`), the claim says
`edge_type_count` returns the integer `0`; the source's
`self.edge_counts.get(type)` returns `None` for a type never counted. -/
theorem c6_counterexample :
    Graph.emptyG.get_edge_type_count "knows" = none ∧
    Graph.emptyG.get_edge_type_count "knows" ≠ some 0 :=
  ⟨rfl, by decide⟩

/-- Claim C6 (amended): with the creation/removal counter maintenance
modelled from the spec (it is absent from `graph.py`), after `N ≥ 1`
`add_edge` calls of type `T` followed by `M ≤ N` `remove_edge` calls of type
`T`, `get_edge_type_count T` returns the integer `N - M`, which equals the
number of live edge records of type `T`; for a type with no edge ever
created it returns `None` rather than `0`. -/
theorem c6_amended (N M : Nat) (T : String) (hN : 1 ≤ N) (hM : M ≤ N) :
    (removeEdgesN T M (addEdgesN T N Graph.emptyG)).get_edge_type_count T
        = some ((N : Int) - (M : Int)) ∧
    (removeEdgesN T M (addEdgesN T N Graph.emptyG)).edges.count T = N - M := by
  obtain ⟨h1, h2, h3⟩ := addEdgesN_spec T N
  obtain ⟨r1, r2, r3⟩ := removeEdgesN_spec T M (addEdgesN T N Graph.emptyG)
      ((N : Int)) N h1 h2 (h3 hN) hM
  refine ⟨?_, ?_⟩
  · rw [Graph.get_edge_type_count, if_pos r3, r1]
  · rw [r2]
    simp

/-- Witness for `c6_amended` at `N = 2`, `M = 1`, type "knows". -/
theorem c6_amended_witness :
    (1 ≤ 2 ∧ 1 ≤ 2) ∧
    ((removeEdgesN "knows" 1 (addEdgesN "knows" 2 Graph.emptyG)).get_edge_type_count "knows"
        = some ((2 : Int) - (1 : Int)) ∧
     (removeEdgesN "knows" 1 (addEdgesN "knows" 2 Graph.emptyG)).edges.count "knows" = 2 - 1) :=
  ⟨⟨by decide, by decide⟩, c6_amended 2 1 "knows" (by decide) (by decide)⟩

/-- Claim C7, evaluating `MultiMap.remove_edge(1, 2)` on an empty map: with
logging enabled the call returns `False`; with logging disabled
(`logging_level=None`) the same call raises `AttributeError`, because the
failure path dereferences `self.logger`, an attribute `__init__` only assigns
when the logging level is truthy.  Disabling logging therefore does change
behavior — an operation fails only because no logger was configured. -/
theorem c7_code_eval :
    (mmLoggedEmpty.remove_edge 1 2).map (fun p => p.2) = .ok false ∧
    mmUnloggedEmpty.remove_edge 1 2 = .error .attributeError :=
  ⟨rfl, rfl⟩

/-- Claim C8: constructing a `ReversibleMultiMap` always fails — `__init__`
reads `self.config`, never assigned and not a parameter, before building the
first inner `MultiMap`, so the fresh-instance attribute read raises
`AttributeError`; and since `Graph._related` is a
`defaultdict(ReversibleMultiMap)`, any first access to a missing key (for
every key) invokes this constructor and fails the same way. -/
theorem c8_constructor_always_fails :
    rmmNew = .error .attributeError ∧
    ∀ k : String, relatedDefaultAccess k = .error .attributeError :=
  ⟨rfl, fun _ => rfl⟩

/-- Claim C9: `Graph.get_node_by_id` returns `None` for every graph and every
id (first conjunct); in particular, after `add_node("Person", "alice", _)`
succeeds, the `_nodes` dict lookup for the new id would find the record
(reference 0) yet the method still returns `None` — the lookup value is
discarded because the body has no `return`. -/
theorem c9_get_node_by_id_none :
    (∀ (g : Graph) (id : Int), g.get_node_by_id id = none) ∧
    (Graph.emptyG.add_node (fun _ => []) "Person" "alice" 0).map
        (fun tr => (tr.1.nodes (uuid4 0), tr.1.get_node_by_id (uuid4 0)))
      = .ok (some 0, none) :=
  ⟨fun _ _ => rfl, rfl⟩

/-- Claim C10: on a logging-enabled `MultiMap` and a key `k` not present,
`remove_edge(k, v)` returns `False` yet inserts `k` with an empty collection
(`contains_key` becomes true, `len` grows by one); `clear_key(k)` returns
`[]` and likewise inserts `k`; and `clear_key` on a present key (here: right
after `add_edge(k, v')`) returns the old entries, empties the collection,
but leaves the key itself in the map. -/
theorem c10_failed_removal_mutates (m : MultiMap) (k v v' : Int)
    (hl : m.hasLogger = true) (hk : m.contains_key k = false) :
    (∃ m1, m.remove_edge k v = .ok (m1, false) ∧
       m1.contains_key k = true ∧ m1.len = m.len + 1) ∧
    (∃ m2, m.clear_key k = (m2, []) ∧
       m2.contains_key k = true ∧ m2.len = m.len + 1) ∧
    (((m.add_edge k v').1.clear_key k).2 = [v'] ∧
     ((m.add_edge k v').1.clear_key k).1.contains_key k = true ∧
     ((m.add_edge k v').1.clear_key k).1.dget k = []) := by
  have hk' : k ∉ m.keys := by simpa [MultiMap.contains_key] using hk
  have hdget : m.dget k = [] := by simp [MultiMap.dget, hk']
  have hsetkeys : ∀ l : List Int, (m.set k l).keys = m.keys ++ [k] := by
    intro l; simp [MultiMap.set, hk']
  refine ⟨⟨m.set k [], ?_, ?_, ?_⟩, ⟨m.set k [], ?_, ?_, ?_⟩, ?_, ?_, ?_⟩
  · rw [MultiMap.remove_edge]
    simp [hdget, hl]
  · simp [MultiMap.contains_key, hsetkeys]
  · simp [MultiMap.len, hsetkeys]
  · rw [MultiMap.clear_key]
    simp [hdget]
  · simp [MultiMap.contains_key, hsetkeys]
  · simp [MultiMap.len, hsetkeys]
  · simp [MultiMap.add_edge, MultiMap.clear_key, hdget, MultiMap.dget_set_self]
  · simp [MultiMap.add_edge, MultiMap.clear_key, hdget, MultiMap.dget_set_self,
      MultiMap.contains_key, MultiMap.mem_keys_set]
  · simp [MultiMap.add_edge, MultiMap.clear_key, hdget, MultiMap.dget_set_self]

/-- Witness for `c10_failed_removal_mutates` at the empty logging-enabled
map, key 1, values 2 and 3. -/
theorem c10_failed_removal_mutates_witness :
    (mmLoggedEmpty.hasLogger = true ∧ mmLoggedEmpty.contains_key 1 = false) ∧
    ((∃ m1, mmLoggedEmpty.remove_edge 1 2 = .ok (m1, false) ∧
       m1.contains_key 1 = true ∧ m1.len = mmLoggedEmpty.len + 1) ∧
    (∃ m2, mmLoggedEmpty.clear_key 1 = (m2, []) ∧
       m2.contains_key 1 = true ∧ m2.len = mmLoggedEmpty.len + 1) ∧
    (((mmLoggedEmpty.add_edge 1 3).1.clear_key 1).2 = [3] ∧
     ((mmLoggedEmpty.add_edge 1 3).1.clear_key 1).1.contains_key 1 = true ∧
     ((mmLoggedEmpty.add_edge 1 3).1.clear_key 1).1.dget 1 = [])) :=
  ⟨⟨rfl, rfl⟩, c10_failed_removal_mutates mmLoggedEmpty 1 2 3 rfl rfl⟩
